import Mathlib

/-!
Verification of the piper-tts-api text-to-speech service: the long-text
chunking loop, the per-chunk synthesis pipeline with its silence and
failure handling, the `/tts` endpoint validation and error mapping, the
cache eviction sweep, and audio-segment concatenation.

Python strings are modelled as `List Char`; the Python string operations
used by the code (`str.split()`, `str.strip()`, `str.lower()`,
`str.endswith`) are given structurally recursive definitions on that
model so every definition evaluates.
-/

namespace PiperApi

/-- A Python string, modelled as its character sequence. -/
abbrev PyStr := List Char

/-- A word produced by `text.split()`. -/
abbrev Word := List Char

/-- Accumulating core of `str.split()` with no separator argument: split on
runs of whitespace, dropping empty pieces; `cur` is the word being built. -/
def pySplitAux (cur : Word) : PyStr → List Word
  | [] => if cur = [] then [] else [cur]
  | c :: cs =>
    if c.isWhitespace then
      if cur = [] then pySplitAux [] cs else cur :: pySplitAux [] cs
    else pySplitAux (cur ++ [c]) cs

/-- Python `text.split()` (whitespace split, empty pieces dropped), as used
by `generate_audio_by_splitting_piper` and `handle_piper_request`. -/
def pySplit (s : PyStr) : List Word := pySplitAux [] s

/-- Python `str.strip()`: remove leading and trailing whitespace. -/
def pyStrip (s : PyStr) : PyStr :=
  ((s.dropWhile Char.isWhitespace).reverse.dropWhile Char.isWhitespace).reverse

/-- Python `str.lower()`. -/
def pyLower (s : PyStr) : PyStr := s.map Char.toLower

/-- Python `word.endswith(('.', '!', '?'))` from the chunking loop of
`generate_audio_by_splitting_piper` (piper_tts.py line 102). -/
def endsSentence (w : Word) : Bool :=
  match w.getLast? with
  | some c => c == '.' || c == '!' || c == '?'
  | none => false

/-- The word-accumulation loop of `generate_audio_by_splitting_piper`
(piper_tts.py lines 100–109, identically app.py lines 163–173): `cur` is
`current_paragraph_words`; after appending the next word, the chunk is
closed when the accumulation holds at least 450 words and the word is
sentence-terminal, or unconditionally at 500 words; a trailing nonempty
accumulation is flushed as a final chunk.  The result is the chunk
sequence as word lists (each chunk is rendered with `' '.join` by
`paragraphsOf`). -/
def chunkLoop (cur : List Word) : List Word → List (List Word)
  | [] => if cur = [] then [] else [cur]
  | w :: ws =>
    if 450 ≤ (cur ++ [w]).length ∧ endsSentence w then
      (cur ++ [w]) :: chunkLoop [] ws
    else if 500 ≤ (cur ++ [w]).length then
      (cur ++ [w]) :: chunkLoop [] ws
    else
      chunkLoop (cur ++ [w]) ws

/-- The chunks of an input text, as word lists: `words = text.split()`
followed by the accumulation loop. -/
def chunkWordLists (text : PyStr) : List (List Word) :=
  chunkLoop [] (pySplit text)

/-- The `paragraphs` list built by `generate_audio_by_splitting_piper`:
each chunk's words joined by `' '.join(...)`. -/
def paragraphsOf (text : PyStr) : List PyStr :=
  (chunkWordLists text).map (fun c => List.intercalate [' '] c)

theorem chunkLoop_flatten (ws : List Word) :
    ∀ cur, (chunkLoop cur ws).flatten = cur ++ ws := by
  induction ws with
  | nil =>
    intro cur
    by_cases h : cur = [] <;> simp [chunkLoop, h]
  | cons w ws ih =>
    intro cur
    simp only [chunkLoop]
    by_cases h1 : 450 ≤ (cur ++ [w]).length ∧ endsSentence w
    · rw [if_pos h1]
      simp [ih]
    · rw [if_neg h1]
      by_cases h2 : 500 ≤ (cur ++ [w]).length
      · rw [if_pos h2]
        simp [ih]
      · rw [if_neg h2, ih]
        simp

/-- C1: for every word sequence longer than the 500-word threshold, the
chunks produced by the splitting loop of `generate_audio_by_splitting_piper`
concatenate, in order, back to the original word sequence — no word
duplicated, dropped, or reordered. -/
theorem chunker_preserves_word_sequence (ws : List Word)
    (_h : 500 < ws.length) :
    (chunkLoop [] ws).flatten = ws := by
  simpa using chunkLoop_flatten ws []

/-- C1 witness: a concrete 501-word input, on which the chunker provably
reassembles the input word sequence. -/
theorem chunker_preserves_word_sequence_witness :
    500 < (List.replicate 501 (['a'] : Word)).length ∧
      (chunkLoop [] (List.replicate 501 (['a'] : Word))).flatten
        = List.replicate 501 (['a'] : Word) :=
  ⟨by rw [List.length_replicate]; exact Nat.lt_succ_self 500,
   chunker_preserves_word_sequence _
     (by rw [List.length_replicate]; exact Nat.lt_succ_self 500)⟩

theorem chunkLoop_mem_sound (ws : List Word) :
    ∀ cur, cur.length ≤ 499 → ∀ c ∈ chunkLoop cur ws, c ≠ [] ∧ c.length ≤ 500 := by
  induction ws with
  | nil =>
    intro cur hcur c hc
    by_cases h : cur = []
    · simp [chunkLoop, h] at hc
    · simp only [chunkLoop, if_neg h, List.mem_singleton] at hc
      subst hc
      exact ⟨h, Nat.le_trans hcur (by norm_num)⟩
  | cons w ws ih =>
    intro cur hcur c hc
    simp only [chunkLoop] at hc
    by_cases h1 : 450 ≤ (cur ++ [w]).length ∧ endsSentence w
    · rw [if_pos h1] at hc
      rcases List.mem_cons.mp hc with rfl | hmem
      · refine ⟨by simp, ?_⟩
        simp only [List.length_append, List.length_singleton]
        omega
      · exact ih [] (by simp) c hmem
    · rw [if_neg h1] at hc
      by_cases h2 : 500 ≤ (cur ++ [w]).length
      · rw [if_pos h2] at hc
        rcases List.mem_cons.mp hc with rfl | hmem
        · refine ⟨by simp, ?_⟩
          simp only [List.length_append, List.length_singleton]
          omega
        · exact ih [] (by simp) c hmem
      · rw [if_neg h2] at hc
        have hlen : (cur ++ [w]).length ≤ 499 := by
          simp only [List.length_append, List.length_singleton] at h2 ⊢
          omega
        exact ih _ hlen c hc

/-- C2: every chunk emitted by the splitting loop of
`generate_audio_by_splitting_piper` is non-empty and holds at most 500
words (the hard maximum), for every input — in particular also when no
word of the input ends in a sentence-terminal punctuation mark. -/
theorem chunks_nonempty_and_bounded (ws : List Word) (c : List Word)
    (h : c ∈ chunkLoop [] ws) : c ≠ [] ∧ c.length ≤ 500 :=
  chunkLoop_mem_sound ws [] (by simp) c h

/-- C2 witness: the chunk produced from the single word "hi" is non-empty
and within the 500-word bound. -/
theorem chunks_nonempty_and_bounded_witness :
    (([['h','i']] : List Word) ∈ chunkLoop [] ([['h','i']] : List Word)) ∧
      ([['h','i']] : List Word) ≠ [] ∧ ([['h','i']] : List Word).length ≤ 500 :=
  ⟨by decide, chunks_nonempty_and_bounded ([['h','i']] : List Word) _ (by decide)⟩

theorem chunkLoop_dropLast_ge (ws : List Word) :
    ∀ cur, ∀ c ∈ (chunkLoop cur ws).dropLast, 450 ≤ c.length := by
  induction ws with
  | nil =>
    intro cur c hc
    by_cases h : cur = [] <;> simp [chunkLoop, h] at hc
  | cons w ws ih =>
    intro cur c hc
    simp only [chunkLoop] at hc
    by_cases h1 : 450 ≤ (cur ++ [w]).length ∧ endsSentence w
    · rw [if_pos h1] at hc
      rcases eq_or_ne (chunkLoop [] ws) [] with hnil | hnil
      · rw [hnil] at hc
        simp at hc
      · rw [List.dropLast_cons_of_ne_nil hnil] at hc
        rcases List.mem_cons.mp hc with rfl | hmem
        · exact h1.1
        · exact ih [] c hmem
    · rw [if_neg h1] at hc
      by_cases h2 : 500 ≤ (cur ++ [w]).length
      · rw [if_pos h2] at hc
        rcases eq_or_ne (chunkLoop [] ws) [] with hnil | hnil
        · rw [hnil] at hc
          simp at hc
        · rw [List.dropLast_cons_of_ne_nil hnil] at hc
          rcases List.mem_cons.mp hc with rfl | hmem
          · omega
          · exact ih [] c hmem
      · rw [if_neg h2] at hc
        exact ih _ c hc

/-- C10: every chunk produced by the splitting loop except possibly the
final (trailing) one holds at least 450 words: a chunk is only closed once
the accumulation reaches the 450-word soft threshold at a
sentence-terminal word or the 500-word hard threshold, so only the
trailing flush may be shorter. -/
theorem non_final_chunks_at_least_450 (ws : List Word) :
    ((chunkLoop [] ws).dropLast).all (fun c => decide (450 ≤ c.length)) = true := by
  rw [List.all_eq_true]
  intro c hc
  simpa using chunkLoop_dropLast_ge ws [] c hc

/-- One synthesis invocation of `generate_audio_piper`: the text passed
and the `sentence_silence` value passed with it. -/
abbrev SynthCall := PyStr × ℚ

/-- The per-chunk synthesis calls of `generate_audio_by_splitting_piper`
(piper_tts.py lines 112–116): chunk `i` of the `paragraphs` list is
synthesized with the request's configured silence when
`i < len(paragraphs) - 1`, and with `0.0` for the last chunk. -/
def splitSynthCalls (ps : List PyStr) (silence : ℚ) : List SynthCall :=
  ps.enum.map (fun p => (p.2, if p.1 < ps.length - 1 then silence else 0))

/-- The synthesis calls issued by `handle_piper_request` (piper_tts.py
lines 145–150): a text of more than 500 whitespace-split words routes to
the splitting path; otherwise one direct call passes the whole text with
the configured silence. -/
def handlePiperCalls (text : PyStr) (silence : ℚ) : List SynthCall :=
  if 500 < (pySplit text).length then
    splitSynthCalls (paragraphsOf text) silence
  else
    [(text, silence)]

/-- C3: when the input's whitespace-split word count is at most 500,
`handle_piper_request` makes exactly one synthesis call, passing the whole
(trimmed) text with the configured silence, and never invokes the
splitting path. -/
theorem short_text_single_direct_call (text : PyStr) (silence : ℚ)
    (h : (pySplit text).length ≤ 500) :
    handlePiperCalls text silence = [(text, silence)] := by
  rw [handlePiperCalls, if_neg (not_lt.mpr h)]

/-- C3 witness: the two-word text "hello world." is synthesized in a
single direct call. -/
theorem short_text_single_direct_call_witness :
    (pySplit "hello world.".toList).length ≤ 500 ∧
      handlePiperCalls "hello world.".toList (1/2)
        = [("hello world.".toList, 1/2)] :=
  ⟨by decide, short_text_single_direct_call "hello world.".toList (1/2) (by decide)⟩

theorem chunkLoop_ne_nil (ws : List Word) (h : ws ≠ []) :
    chunkLoop [] ws ≠ [] := by
  intro hnil
  have hflat := chunkLoop_flatten ws []
  rw [hnil] at hflat
  simp only [List.flatten_nil, List.nil_append] at hflat
  exact h hflat.symm

theorem splitSynthCalls_length (ps : List PyStr) (silence : ℚ) :
    (splitSynthCalls ps silence).length = ps.length := by
  simp [splitSynthCalls, List.enum_length]

theorem splitSynthCalls_silence (ps : List PyStr) (silence : ℚ) (i : Nat) :
    ((splitSynthCalls ps silence).map Prod.snd)[i]?
      = (ps[i]?).map (fun _ => if i < ps.length - 1 then silence else 0) := by
  simp only [splitSynthCalls, List.map_map, List.getElem?_map,
    List.getElem?_enum ps i, Option.map_map]
  rfl

/-- C4 counterexample: the request on text "hi" (a single chunk) with
configured sentence_silence 1 is synthesized in one direct call that keeps
silence 1 — the final (only) synthesis call does not have its silence
forced to zero. -/
theorem final_chunk_silence_counterexample :
    ((handlePiperCalls "hi".toList 1).map Prod.snd).getLast? = some 1 ∧
      (1 : ℚ) ≠ 0 := by
  constructor
  · decide
  · norm_num

/-- C4 amended: on the splitting path (more than 500 whitespace-split
words), every chunk except the last is synthesized with the request's
configured sentence_silence value and the final chunk with that value
forced to zero; the single-chunk direct path instead keeps the configured
value. -/
theorem final_chunk_silence_amended (text : PyStr) (silence : ℚ)
    (h : 500 < (pySplit text).length) :
    ((handlePiperCalls text silence).map Prod.snd).getLast? = some 0 ∧
      (∀ i, i + 1 < (handlePiperCalls text silence).length →
        ((handlePiperCalls text silence).map Prod.snd)[i]? = some silence) := by
  have hne : paragraphsOf text ≠ [] := by
    have hw : pySplit text ≠ [] := by
      intro hnil
      rw [hnil] at h
      simp at h
    simpa [paragraphsOf, chunkWordLists] using chunkLoop_ne_nil (pySplit text) hw
  have hcalls : handlePiperCalls text silence
      = splitSynthCalls (paragraphsOf text) silence := by
    rw [handlePiperCalls, if_pos h]
  have hpos : 0 < (paragraphsOf text).length := List.length_pos.mpr hne
  constructor
  · rw [hcalls, List.getLast?_eq_getElem?, List.length_map,
      splitSynthCalls_length, splitSynthCalls_silence]
    have hlt : (paragraphsOf text).length - 1 < (paragraphsOf text).length := by
      omega
    rw [List.getElem?_eq_getElem hlt, Option.map_some']
    rw [if_neg (by omega)]
  · intro i hi
    rw [hcalls, splitSynthCalls_length] at hi
    rw [hcalls, splitSynthCalls_silence]
    have hilt : i < (paragraphsOf text).length := by omega
    rw [List.getElem?_eq_getElem hilt, Option.map_some']
    rw [if_pos (by omega)]

set_option maxRecDepth 100000 in
/-- C4 amended witness: on a concrete 501-word input, the final chunk is
synthesized with silence zero. -/
theorem final_chunk_silence_amended_witness :
    500 < (pySplit (List.replicate 501 (['a', ' '] : List Char)).flatten).length ∧
      ((handlePiperCalls (List.replicate 501 (['a', ' '] : List Char)).flatten 1).map
        Prod.snd).getLast? = some 0 :=
  ⟨by decide,
   (final_chunk_silence_amended (List.replicate 501 (['a', ' '] : List Char)).flatten
     1 (by decide)).1⟩

/-- Outcome of the per-chunk synthesis loop of
`generate_audio_by_splitting_piper` (piper_tts.py lines 111–122): the
chunk indices for which synthesis was attempted, the per-chunk temporary
files still existing after the loop, and the index of the chunk whose
synthesis raised, if any. -/
structure LoopOutcome where
  attempted : List Nat
  tempFiles : List Nat
  failed : Option Nat
  deriving DecidableEq

/-- The synthesis loop over chunk indices: for chunk `i`,
`generate_audio_piper` either raises (`ok i = false`: no chunk file is
produced, the exception aborts the loop) or writes the chunk file `i`,
which is read into an audio segment and immediately removed
(`os.remove`, line 119). -/
def chunkSynthLoop (ok : Nat → Bool) (fs : List Nat) : List Nat → LoopOutcome
  | [] => ⟨[], fs, none⟩
  | i :: is =>
    if ok i then
      let out := chunkSynthLoop ok ((fs ++ [i]).erase i) is
      ⟨i :: out.attempted, out.tempFiles, out.failed⟩
    else
      ⟨[i], fs, some i⟩

/-- `generate_audio_by_splitting_piper` after chunking: the loop runs over
the chunk indices starting from no temporary files, and the combined
output file (lines 124–128) is written only when no chunk failed. -/
def splitPipeline (ok : Nat → Bool) (n : Nat) : LoopOutcome × Bool :=
  (chunkSynthLoop ok [] (List.range n),
   (chunkSynthLoop ok [] (List.range n)).failed.isNone)

theorem chunkSynthLoop_tempFiles (ok : Nat → Bool) :
    ∀ is, (chunkSynthLoop ok [] is).tempFiles = [] := by
  intro is
  induction is with
  | nil => rfl
  | cons i is ih =>
    by_cases h : ok i
    · simpa [chunkSynthLoop, h] using ih
    · simp [chunkSynthLoop, h]

theorem chunkSynthLoop_fail (ok : Nat → Bool) :
    ∀ is k, (chunkSynthLoop ok [] is).failed = some k →
      ok k = false ∧
        (chunkSynthLoop ok [] is).attempted = is.takeWhile ok ++ [k] := by
  intro is
  induction is with
  | nil =>
    intro k h
    simp [chunkSynthLoop] at h
  | cons i is ih =>
    intro k h
    by_cases hok : ok i
    · have hred : chunkSynthLoop ok [] (i :: is)
          = ⟨i :: (chunkSynthLoop ok [] is).attempted,
             (chunkSynthLoop ok [] is).tempFiles,
             (chunkSynthLoop ok [] is).failed⟩ := by
        simp [chunkSynthLoop, hok]
      rw [hred] at h ⊢
      obtain ⟨h1, h2⟩ := ih k h
      exact ⟨h1, by simp [List.takeWhile_cons, hok, h2]⟩
    · have hred : chunkSynthLoop ok [] (i :: is) = ⟨[i], [], some i⟩ := by
        simp [chunkSynthLoop, hok]
      rw [hred] at h ⊢
      simp only [Option.some.injEq] at h
      subst h
      refine ⟨by simpa using hok, ?_⟩
      simp [List.takeWhile_cons, hok]

/-- C5: if synthesizing chunk `k` of a split request fails, the pipeline
aborts at that chunk: exactly the chunks up to and including `k` were
attempted (none after it), no per-chunk temporary file remains, and the
combined output file is not written. -/
theorem chunk_failure_aborts_cleanly (ok : Nat → Bool) (n k : Nat)
    (h : (chunkSynthLoop ok [] (List.range n)).failed = some k) :
    ok k = false ∧
      (chunkSynthLoop ok [] (List.range n)).attempted
        = (List.range n).takeWhile ok ++ [k] ∧
      (chunkSynthLoop ok [] (List.range n)).tempFiles = [] ∧
      (splitPipeline ok n).2 = false := by
  obtain ⟨h1, h2⟩ := chunkSynthLoop_fail ok (List.range n) k h
  refine ⟨h1, h2, chunkSynthLoop_tempFiles ok (List.range n), ?_⟩
  simp [splitPipeline, h]

/-- C5 witness: three chunks of which the third fails — the first two are
attempted and cleaned up, the third aborts, no output is written. -/
theorem chunk_failure_aborts_cleanly_witness :
    (chunkSynthLoop (fun i => decide (i < 2)) [] (List.range 3)).failed = some 2 ∧
      ((fun i => decide (i < 2)) 2 = false ∧
        (chunkSynthLoop (fun i => decide (i < 2)) [] (List.range 3)).attempted
          = (List.range 3).takeWhile (fun i => decide (i < 2)) ++ [2] ∧
        (chunkSynthLoop (fun i => decide (i < 2)) [] (List.range 3)).tempFiles = [] ∧
        (splitPipeline (fun i => decide (i < 2)) 3).2 = false) :=
  ⟨by decide, chunk_failure_aborts_cleanly (fun i => decide (i < 2)) 3 2 (by decide)⟩

/-- Keys of `AVAILABLE_PIPER_VOICES` (piper_tts.py lines 30–34). -/
def availablePiperVoices : List PyStr :=
  ["en_us".toList, "en_gb".toList, "en_us_female".toList]

/-- The exception classes the `/tts` endpoint distinguishes on the Piper
path (app.py lines 380–389). -/
inductive PiperExc
  | valueError
  | fileNotFound
  | notImplemented
  | other
  deriving DecidableEq

/-- The exception classes the endpoint distinguishes on the Google path
(app.py lines 397–414). -/
inductive GoogleExc
  | valueError
  | permissionDenied
  | runtimeFailure
  | notAvailable
  | other
  deriving DecidableEq

/-- Server-side state the endpoint's behavior depends on: whether the
piper library imported (`PIPER_AVAILABLE`), which voice model files exist
on disk, whether the Google client initialized (`GOOGLE_AVAILABLE`), and
the outcome of a Google synthesis call (an external collaborator, kept
abstract). -/
structure ServerEnv where
  piperAvailable : Bool
  modelFileExists : PyStr → Bool
  googleAvailable : Bool
  googleResult : Except GoogleExc Unit

/-- `load_piper_voice` (piper_tts.py lines 37–49): NotImplementedError
when the piper library is missing, ValueError for an unknown voice key,
FileNotFoundError when the model file does not exist. -/
def load_piper_voice (env : ServerEnv) (voiceKey : PyStr) : Except PiperExc Unit :=
  if env.piperAvailable = false then .error .notImplemented
  else if voiceKey ∉ availablePiperVoices then .error .valueError
  else if env.modelFileExists voiceKey = false then .error .fileNotFound
  else .ok ()

/-- The error behavior of `handle_piper_request` (piper_tts.py lines
133–150): the voice-key check raises ValueError; both the direct and the
splitting path then load the voice through `generate_audio_piper`, so a
load failure surfaces on either path before any audio is written. -/
def handle_piper_request_exc (env : ServerEnv) (voiceKey : PyStr) :
    Except PiperExc Unit :=
  if voiceKey ∉ availablePiperVoices then .error .valueError
  else load_piper_voice env voiceKey

/-- The observable outcome of one `/tts` call: HTTP status, whether an
output file was written to the cache, and whether an engine handler was
invoked. -/
structure TtsOutcome where
  status : Nat
  fileWritten : Bool
  engineInvoked : Bool
  deriving DecidableEq

/-- A `/tts` request body, each field already defaulted as by
`data.get(...)` (app.py lines 362–364 and 282). -/
structure TtsReq where
  engine : PyStr
  text : PyStr
  format : PyStr
  voice : PyStr

/-- Status codes of the Google-path exception handlers (app.py lines
397–414). -/
def googleStatus : GoogleExc → Nat
  | .valueError => 400
  | .permissionDenied => 403
  | .runtimeFailure => 500
  | .notAvailable => 503
  | .other => 500

/-- `tts_endpoint` (app.py lines 330–433): trims the text and lowercases
engine and format, rejects empty text and unsupported formats before any
engine dispatch, maps Piper exceptions to 400 (ValueError and
FileNotFoundError), 501 (NotImplementedError) or 500, maps Google
exceptions through `googleStatus`, and writes an output file only on
success. -/
def tts_endpoint (env : ServerEnv) (req : TtsReq) : TtsOutcome :=
  let engine := pyLower req.engine
  let text := pyStrip req.text
  let fmt := pyLower req.format
  if text = [] then ⟨400, false, false⟩
  else if fmt ≠ "wav".toList ∧ fmt ≠ "mp3".toList then ⟨400, false, false⟩
  else if engine = "piper".toList then
    if env.piperAvailable = false then ⟨501, false, false⟩
    else
      match handle_piper_request_exc env (pyStrip req.voice) with
      | .error .valueError => ⟨400, false, true⟩
      | .error .fileNotFound => ⟨400, false, true⟩
      | .error .notImplemented => ⟨501, false, true⟩
      | .error .other => ⟨500, false, true⟩
      | .ok _ => ⟨200, true, true⟩
  else if engine = "google".toList then
    if env.googleAvailable = false then ⟨503, false, false⟩
    else
      match env.googleResult with
      | .error e => ⟨googleStatus e, false, true⟩
      | .ok _ => ⟨200, true, true⟩
  else ⟨400, false, false⟩

/-- A server state whose piper library is present but whose voice model
files are all missing. -/
def envMissingModel : ServerEnv :=
  ⟨true, fun _ => false, false, Except.error GoogleExc.notAvailable⟩

/-- A well-formed Piper request for voice `en_us`. -/
def reqEnUsWav : TtsReq :=
  ⟨"piper".toList, "hello".toList, "wav".toList, "en_us".toList⟩

/-- C6 counterexample: with the piper library present but the voice model
file missing, the request is answered with status 400 — FileNotFoundError
is caught together with ValueError as a client error — not with a
5xx/"not implemented" class status. -/
theorem missing_model_counterexample :
    tts_endpoint envMissingModel reqEnUsWav
        = ⟨400, false, true⟩ ∧
      ¬ 500 ≤ (tts_endpoint envMissingModel reqEnUsWav).status :=
  ⟨by decide, by decide⟩

/-- C6 amended: when the selected Piper voice's model file is missing and
all request-level validation passes, the request fails with status 400
(the endpoint catches FileNotFoundError together with ValueError), no
output file is written, and the serving process answers with an error
response rather than crashing. -/
theorem missing_model_fails_400 (env : ServerEnv) (req : TtsReq)
    (h1 : pyStrip req.text ≠ [])
    (h2 : pyLower req.format = "wav".toList ∨ pyLower req.format = "mp3".toList)
    (h3 : pyLower req.engine = "piper".toList)
    (h4 : env.piperAvailable = true)
    (h5 : pyStrip req.voice ∈ availablePiperVoices)
    (h6 : env.modelFileExists (pyStrip req.voice) = false) :
    tts_endpoint env req = ⟨400, false, true⟩ := by
  have hexc : handle_piper_request_exc env (pyStrip req.voice)
      = Except.error PiperExc.fileNotFound := by
    rw [handle_piper_request_exc, if_neg (by simp [h5]), load_piper_voice,
      if_neg (by simp [h4]), if_neg (by simp [h5]), if_pos h6]
  have hfmt : ¬(pyLower req.format ≠ "wav".toList ∧
      pyLower req.format ≠ "mp3".toList) := by
    rcases h2 with h | h <;> simp [h]
  simp only [tts_endpoint]
  rw [if_neg h1, if_neg hfmt, if_pos h3, if_neg (by simp [h4]), hexc]

/-- C6 amended witness: a concrete request against a server lacking the
`en_us` model file is answered 400 with no file written. -/
theorem missing_model_fails_400_witness :
    pyStrip ("hello".toList) ≠ [] ∧
      tts_endpoint envMissingModel
          ⟨"piper".toList, "hello".toList, "mp3".toList, "en_us".toList⟩
        = ⟨400, false, true⟩ :=
  ⟨by decide,
   missing_model_fails_400 envMissingModel
     ⟨"piper".toList, "hello".toList, "mp3".toList, "en_us".toList⟩
     (by decide) (by decide) (by decide) (by decide) (by decide) (by decide)⟩

/-- C7: a request whose format (lowercased) is neither "wav" nor "mp3",
or whose text is empty after trimming, is rejected with status 400 before
any engine handler or adapter is invoked, and no file is written to the
cache directory. -/
theorem invalid_request_rejected_early (env : ServerEnv) (req : TtsReq)
    (h : pyStrip req.text = [] ∨
      (pyLower req.format ≠ "wav".toList ∧ pyLower req.format ≠ "mp3".toList)) :
    tts_endpoint env req = ⟨400, false, false⟩ := by
  simp only [tts_endpoint]
  rcases h with h | h
  · rw [if_pos h]
  · by_cases ht : pyStrip req.text = []
    · rw [if_pos ht]
    · rw [if_neg ht, if_pos h]

/-- C7 witness: a request with format "ogg" is rejected with 400 before
engine dispatch. -/
theorem invalid_request_rejected_early_witness :
    (pyLower "ogg".toList ≠ "wav".toList ∧ pyLower "ogg".toList ≠ "mp3".toList) ∧
      tts_endpoint envMissingModel
          ⟨"piper".toList, "hi".toList, "ogg".toList, "en_us".toList⟩
        = ⟨400, false, false⟩ :=
  ⟨by decide,
   invalid_request_rejected_early envMissingModel
     ⟨"piper".toList, "hi".toList, "ogg".toList, "en_us".toList⟩
     (Or.inr (by decide))⟩

/-- One entry of the cache directory listing: its name, its last-modified
time in seconds, and whether it is a regular file (`os.path.isfile`). -/
structure CacheEntry where
  name : PyStr
  mtime : Int
  isFile : Bool
  deriving DecidableEq

/-- `clear_audio_cache` (src/utils.py lines 9–21): scan the cache
directory at time `now` and remove every regular file whose age
`now - mtime` strictly exceeds 86400 seconds (one day); every other entry
is kept. -/
def clear_audio_cache (now : Int) (entries : List CacheEntry) : List CacheEntry :=
  entries.filter (fun f => !(f.isFile && decide (86400 < now - f.mtime)))

/-- C8: the eviction sweep removes an entry only if it is a regular file
whose age exceeds the 24-hour retention window; a sweep over entries none
of which exceed the retention age leaves the listing unchanged; and an
immediately repeated sweep has no additional effect (idempotence). -/
theorem cache_sweep_sound (now : Int) (entries : List CacheEntry) :
    (∀ f ∈ entries, f ∉ clear_audio_cache now entries →
        f.isFile = true ∧ 86400 < now - f.mtime) ∧
      ((∀ f ∈ entries, ¬ 86400 < now - f.mtime) →
        clear_audio_cache now entries = entries) ∧
      clear_audio_cache now (clear_audio_cache now entries)
        = clear_audio_cache now entries := by
  refine ⟨?_, ?_, ?_⟩
  · intro f hf hnot
    by_contra hcon
    apply hnot
    simp only [clear_audio_cache, List.mem_filter]
    refine ⟨hf, ?_⟩
    by_cases hb : f.isFile = true
    · have hage : ¬ 86400 < now - f.mtime := fun hage => hcon ⟨hb, hage⟩
      simp [hb, hage]
    · rw [Bool.not_eq_true] at hb
      simp [hb]
  · intro hyoung
    simp only [clear_audio_cache]
    rw [List.filter_eq_self]
    intro f hf
    simp [hyoung f hf]
  · simp only [clear_audio_cache]
    rw [List.filter_filter]
    exact List.filter_congr (fun f _ => Bool.and_self _)

/-- C8 witness: at time 100000, a sweep over a single regular file written
at time 90000 (age below one day) keeps the listing unchanged. -/
theorem cache_sweep_sound_witness :
    clear_audio_cache 100000 [⟨"a".toList, 90000, true⟩]
      = [⟨"a".toList, 90000, true⟩] :=
  (cache_sweep_sound 100000 [⟨"a".toList, 90000, true⟩]).2.1 (by decide)

/-- A decoded audio segment: PCM samples and sample rate, as produced by
`pydub.AudioSegment.from_file` for one chunk. -/
structure AudioSeg where
  samples : List Int
  sampleRate : Nat
  deriving DecidableEq

/-- The concatenation loop of `generate_audio_by_splitting_piper`
(piper_tts.py lines 124–126): `combined = pydub.AudioSegment.empty()` then
`combined += segment` over the segments in chunk order — plain
sample-buffer concatenation for segments sharing one sample rate. -/
def combineSegments (segs : List AudioSeg) : List Int :=
  segs.foldl (fun acc s => acc ++ s.samples) []

theorem combineSegments_foldl_length (segs : List AudioSeg) :
    ∀ acc : List Int,
      (segs.foldl (fun acc s => acc ++ s.samples) acc).length
        = acc.length + (segs.map (fun s => s.samples.length)).sum := by
  induction segs with
  | nil =>
    intro acc
    simp
  | cons s segs ih =>
    intro acc
    simp only [List.foldl_cons, List.map_cons, List.sum_cons, ih,
      List.length_append]
    omega

/-- C9: concatenating per-chunk audio segments that share one sample rate
yields a combined segment whose sample count is exactly the sum of the
per-chunk sample counts — no samples added or dropped at chunk
boundaries. -/
theorem concat_preserves_sample_count (segs : List AudioSeg) (r : Nat)
    (_h : ∀ s ∈ segs, s.sampleRate = r) :
    (combineSegments segs).length
      = (segs.map (fun s => s.samples.length)).sum := by
  simpa using combineSegments_foldl_length segs []

/-- C9 witness: two segments at 22050 Hz of 2 and 1 samples combine to
3 samples. -/
theorem concat_preserves_sample_count_witness :
    (∀ s ∈ [(⟨[0, 1], 22050⟩ : AudioSeg), ⟨[2], 22050⟩], s.sampleRate = 22050) ∧
      (combineSegments [(⟨[0, 1], 22050⟩ : AudioSeg), ⟨[2], 22050⟩]).length
        = ([(⟨[0, 1], 22050⟩ : AudioSeg), ⟨[2], 22050⟩].map
            (fun s => s.samples.length)).sum :=
  ⟨by decide, concat_preserves_sample_count _ 22050 (by decide)⟩

end PiperApi
